import Mathlib

/-!
Verification of the zendb query-builder core.

The development shallowly embeds `src/DatabaseTableQuery.ts`: the immutable
query record built by the pipe-based builder operations, query resolution
(`resolveInternal`), SQL statement construction (`resolvedQueryToSelect` and
friends), the result shaper (`groupRows` / `buildResult`), the per-join
cardinality enforcement (`transformJoin`) and the terminal cardinality
shapers (`one` / `maybeOne` / `first` / `maybeFirst`).

Components of the repository that are exercised only through its test files
(the expression emitter with CTE hoisting, external parameters, and the
newer join/group-by query API) are modelled from the specification; each
such definition carries a doc comment starting with
`Modelled from the spec:`.
-/

namespace ZenDb

/-- Join cardinality kinds, `PipeKind` in `DatabaseTableQuery.ts`. -/
inductive PipeKind where
  | many
  | one
  | maybeOne
  | first
  | maybeFirst
  deriving DecidableEq, Repr

/-- Ordering direction, `OrderDirection` in `DatabaseTableQuery.ts`. -/
inductive OrderDirection where
  | Asc
  | Desc
  deriving DecidableEq, Repr

/-- Primitive cell values appearing in where-records and parameter maps. -/
inductive DbValue where
  | intV (n : Int)
  | textV (s : String)
  | nullV
  deriving DecidableEq, Repr

/-- A where-record, `WhereBase` in the source: a finite map from column names
to values, denoting the conjunction of the corresponding equalities. -/
def WhereRecord : Type := List (String × DbValue)

instance : DecidableEq WhereRecord := by
  unfold WhereRecord
  infer_instance

instance : Repr WhereRecord := by
  unfold WhereRecord
  infer_instance

/-- The immutable query description `DatabaseTableQueryInternal`.
A query either scans a base table (`parent: null` in the source) or is the
result of `pipeInternal`, carrying the join kind, the two join columns and
the parent query (`parent: { kind, currentCol, joinCol, query }`). -/
inductive DbQuery where
  | base (table : String) (selection : Option (List String))
      (whereClause : Option WhereRecord)
      (limitClause : Option (Option Int × Option Int))
      (orderByClause : Option (List (String × OrderDirection)))
  | piped (table : String) (selection : Option (List String))
      (whereClause : Option WhereRecord)
      (limitClause : Option (Option Int × Option Int))
      (orderByClause : Option (List (String × OrderDirection)))
      (kind : PipeKind) (currentCol : String) (joinCol : String)
      (parentQuery : DbQuery)

/-- Table name of a query. -/
def DbQuery.table : DbQuery → String
  | .base t _ _ _ _ => t
  | .piped t _ _ _ _ _ _ _ _ => t

/-- Selection of a query (`null` means star). -/
def DbQuery.selection : DbQuery → Option (List String)
  | .base _ s _ _ _ => s
  | .piped _ s _ _ _ _ _ _ _ => s

/-- Where-record of a query. -/
def DbQuery.whereClause : DbQuery → Option WhereRecord
  | .base _ _ w _ _ => w
  | .piped _ _ w _ _ _ _ _ _ => w

/-- Limit/offset pair of a query. -/
def DbQuery.limitClause : DbQuery → Option (Option Int × Option Int)
  | .base _ _ _ l _ => l
  | .piped _ _ _ l _ _ _ _ _ => l

/-- Order-by terms of a query. -/
def DbQuery.orderByClause : DbQuery → Option (List (String × OrderDirection))
  | .base _ _ _ _ o => o
  | .piped _ _ _ _ o _ _ _ _ => o

/-- Parent of a query: the receiver of the `pipe` call that produced it. -/
def DbQuery.parent : DbQuery → Option (PipeKind × String × String × DbQuery)
  | .base _ _ _ _ _ => none
  | .piped _ _ _ _ _ k cc jc p => some (k, cc, jc, p)

/-- `DatabaseTableQuery.create`: fresh base-table scan, all clauses null. -/
def DbQuery.create (table : String) : DbQuery :=
  .base table none none none none

/-- `DatabaseTableQuery.select`: spread-copy with `selection` updated. -/
def DbQuery.select (q : DbQuery) (sel : List String) : DbQuery :=
  match q with
  | .base t _ w l o => .base t (some sel) w l o
  | .piped t _ w l o k cc jc p => .piped t (some sel) w l o k cc jc p

/-- `DatabaseTableQuery.where`: spread-copy with `where` updated. -/
def DbQuery.whereOp (q : DbQuery) (w : WhereRecord) : DbQuery :=
  match q with
  | .base t s _ l o => .base t s (some w) l o
  | .piped t s _ l o k cc jc p => .piped t s (some w) l o k cc jc p

/-- `DatabaseTableQuery.limit`: spread-copy with `limit` set to
`{ limit, offset }`. -/
def DbQuery.limit (q : DbQuery) (lim off : Option Int) : DbQuery :=
  match q with
  | .base t s w _ o => .base t s w (some (lim, off)) o
  | .piped t s w _ o k cc jc p => .piped t s w (some (lim, off)) o k cc jc p

/-- `DatabaseTableQuery.orderBy`: spread-copy with the normalized ordering
term list (the source's overloads normalize their arguments to one list). -/
def DbQuery.orderBy (q : DbQuery) (terms : List (String × OrderDirection)) :
    DbQuery :=
  match q with
  | .base t s w l _ => .base t s w l (some terms)
  | .piped t s w l _ k cc jc p => .piped t s w l (some terms) k cc jc p

/-- `DatabaseTableQuery.pipeInternal`: fresh query over the joined table with
all clauses null and the receiver stored unchanged as the parent. -/
def DbQuery.pipeInternal (q : DbQuery) (kind : PipeKind)
    (currentCol table joinCol : String) : DbQuery :=
  .piped table none none none none kind currentCol joinCol q

/-- `DatabaseTableQuery.pipe` (left join, kind `many`). -/
def DbQuery.pipe (q : DbQuery) (currentCol table joinCol : String) : DbQuery :=
  q.pipeInternal .many currentCol table joinCol

/-- `DatabaseTableQuery.pipeOne`. -/
def DbQuery.pipeOne (q : DbQuery) (currentCol table joinCol : String) : DbQuery :=
  q.pipeInternal .one currentCol table joinCol

/-- `DatabaseTableQuery.pipeMaybeOne`. -/
def DbQuery.pipeMaybeOne (q : DbQuery) (currentCol table joinCol : String) :
    DbQuery :=
  q.pipeInternal .maybeOne currentCol table joinCol

/-- `DatabaseTableQuery.pipeFirst`. -/
def DbQuery.pipeFirst (q : DbQuery) (currentCol table joinCol : String) :
    DbQuery :=
  q.pipeInternal .first currentCol table joinCol

/-- `DatabaseTableQuery.pipeMaybeFirst`. -/
def DbQuery.pipeMaybeFirst (q : DbQuery) (currentCol table joinCol : String) :
    DbQuery :=
  q.pipeInternal .maybeFirst currentCol table joinCol

/-- Terminal shaper `one()`: applied to the shaped result list, throws unless
there is exactly one result (`Expected 1 result, got N`). -/
def oneResult {α : Type} (results : List α) : Except String α :=
  match results with
  | [x] => .ok x
  | _ => .error ("Expected 1 result, got " ++ toString results.length)

/-- Terminal shaper `maybeOne()`: throws on more than one result, returns
`null` on zero and the single result otherwise. -/
def maybeOneResult {α : Type} (results : List α) : Except String (Option α) :=
  if results.length > 1 then
    .error ("Expected maybe 1 result, got " ++ toString results.length)
  else
    .ok results.head?

/-- Terminal shaper `first()`: throws on zero results, otherwise returns the
first result. -/
def firstResult {α : Type} (results : List α) : Except String α :=
  match results with
  | [] => .error "Expected at least 1 result, got 0"
  | x :: _ => .ok x

/-- Terminal shaper `maybeFirst()`: never throws; `null` on zero results,
otherwise the first result. -/
def maybeFirstResult {α : Type} (results : List α) : Except String (Option α) :=
  .ok results.head?

/-- Content placed under a join key after cardinality enforcement: an array
(kind `many`), a single value, or `null`. -/
inductive JoinContent (α : Type) where
  | arr (xs : List α)
  | val (x : α)
  | nullVal
  deriving DecidableEq, Repr

/-- `transformJoin` from `buildResult`: enforces the join's cardinality kind
on one parent group's joined results. The `maybeOne`/`one` branches check
`results.length > 1` first, exactly as the source does. -/
def transformJoin {α : Type} (results : List α) (kind : PipeKind) :
    Except String (JoinContent α) :=
  match kind with
  | .many => .ok (.arr results)
  | .maybeFirst =>
      .ok (match results.head? with
        | some x => .val x
        | none => .nullVal)
  | .first =>
      match results with
      | [] => .error "No result for a single join"
      | x :: _ => .ok (.val x)
  | .maybeOne =>
      if results.length > 1 then .error "Multiple results for a single join"
      else
        .ok (match results.head? with
          | some x => .val x
          | none => .nullVal)
  | .one =>
      if results.length > 1 then .error "Multiple results for a single join"
      else
        match results with
        | [] => .error "No result for a single join"
        | x :: _ => .ok (.val x)

/-- Column of a table schema: name and primary flag (the part of
`SchemaColumnAny` that `resolveInternal` consults). -/
structure ColumnDef where
  name : String
  primary : Bool
  deriving DecidableEq, Repr

/-- Table schema entry: table name and its ordered columns. -/
structure TableDef where
  name : String
  columns : List ColumnDef
  deriving DecidableEq, Repr

/-- Schema: ordered list of table definitions. -/
def Schema : Type := List TableDef

/-- Columns of a table, `schema.tables[t][PRIV].columns` in the source. -/
def tableColumns (schema : Schema) (t : String) : List ColumnDef :=
  match schema.find? (fun td => td.name == t) with
  | some td => td.columns
  | none => []

/-- Utility `dotCol`: the `"table.col"` result-column alias. -/
def dotCol (tbl col : String) : String := tbl ++ "." ++ col

/-- Keep-first deduplication with an accumulator of already-seen elements
(the `dedupe` utility applied by `resolvedQueryToSelect`). -/
def dedupeAux {α : Type} [DecidableEq α] (seen : List α) : List α → List α
  | [] => []
  | x :: xs =>
      if x ∈ seen then dedupeAux seen xs
      else x :: dedupeAux (x :: seen) xs

/-- Keep-first deduplication of a list. -/
def dedupe {α : Type} [DecidableEq α] (l : List α) : List α := dedupeAux [] l

/-- `ResolvedQuery` from the source: one level of the pipe chain with its
alias, selected columns, join columns and primary-key columns. -/
structure ResolvedQuery where
  table : String
  tableAlias : String
  limit : Option Int
  offset : Option Int
  columns : Option (List String)
  joinColumns : List String
  primaryColumns : List String
  whereClause : Option WhereRecord
  orderBy : Option (List (String × OrderDirection))
  deriving DecidableEq, Repr

/-- `ResolvedJoin` from the source. -/
structure ResolvedJoin where
  kind : PipeKind
  currentCol : String
  joinCol : String
  deriving DecidableEq, Repr

/-- `ResolvedJoinItem` from the source. -/
structure ResolvedJoinItem where
  query : ResolvedQuery
  join : ResolvedJoin
  deriving DecidableEq, Repr

/-- The `Resolved` pair: innermost query plus the join items, outermost
last, exactly as `resolveInternal` accumulates them. -/
def Resolved : Type := ResolvedQuery × List ResolvedJoinItem

instance : DecidableEq Resolved := by
  unfold Resolved
  infer_instance

/-- One level of `resolveInternal`: builds the `ResolvedQuery` record for a
query whose own `joinCol` (from its parent link) and the `parentJoinCol`
passed down by the caller become the join columns. -/
def mkResolvedQuery (schema : Schema) (tbl : String)
    (sel : Option (List String)) (w : Option WhereRecord)
    (lim : Option (Option Int × Option Int))
    (ord : Option (List (String × OrderDirection)))
    (joinCol parentJoinCol : Option String) (depth : Nat) : ResolvedQuery :=
  { table := tbl
    tableAlias := "_" ++ toString depth
    columns := sel
    joinColumns := joinCol.toList ++ parentJoinCol.toList
    primaryColumns :=
      ((tableColumns schema tbl).filter (fun c => c.primary)).map
        (fun c => c.name)
    limit := lim.bind (fun p => p.1)
    offset := lim.bind (fun p => p.2)
    whereClause := w
    orderBy := ord }

/-- `resolveInternal`: walks the parent chain, producing the innermost query
first and appending one `ResolvedJoinItem` per `pipe` level. -/
def resolveInternal (schema : Schema) :
    DbQuery → Option String → Nat → Resolved
  | .base tbl sel w lim ord, parentJoinCol, depth =>
      (mkResolvedQuery schema tbl sel w lim ord none parentJoinCol depth, [])
  | .piped tbl sel w lim ord kind cc jc par, parentJoinCol, depth =>
      let resolved :=
        mkResolvedQuery schema tbl sel w lim ord (some jc) parentJoinCol depth
      let inner := resolveInternal schema par (some cc) (depth + 1)
      (inner.1, inner.2 ++ [⟨resolved, ⟨kind, cc, jc⟩⟩])

/-- `getResolved`: resolution of the whole query, starting at depth 0 with
no parent join column. -/
def DbQuery.getResolved (schema : Schema) (q : DbQuery) : Resolved :=
  resolveInternal schema q none 0

/-- A result column of the emitted SELECT: either `table.col AS "table.col"`
or `table.*` (the `TableStar` pulling up a joined inner select). -/
inductive ResultCol where
  | expr (tbl col colAlias : String)
  | tableStar (tbl : String)
  deriving DecidableEq, Repr

mutual
/-- The `SelectStmt` node built by `resolvedQueryToSelect`. -/
inductive SelectNode where
  | mk (resultColumns : List ResultCol) (fromClause : FromNode)
      (whereClause : Option (String × WhereRecord))
      (limitClause : Option (Int × Option Int))
      (orderByClause : Option (List (String × String × OrderDirection)))

/-- The FROM clause built by `createFrom`: a plain aliased table, or a left
join of the inner select (as an aliased subquery) with the current table. -/
inductive FromNode where
  | table (name tblAlias : String)
  | leftJoin (inner : SelectNode) (innerAlias : String)
      (tbl : String) (tblAlias : String) (onLeft onRight : String)
end

/-- Result columns of a `SelectNode`. -/
def SelectNode.resultColumns : SelectNode → List ResultCol
  | .mk rc _ _ _ _ => rc

/-- Result-column list of `resolvedQueryToSelect`: the deduplicated
concatenation of selected, join and primary columns, each aliased to
`"tableAlias.col"`, followed by the inner select's `TableStar` when a join
is present (the source appends `join ? TableStar : null` and filters out the
null). -/
def resultColumnsOf (r : ResolvedQuery) (joinAlias : Option String) :
    List ResultCol :=
  (((dedupe (r.columns.getD [] ++ r.joinColumns ++ r.primaryColumns)).map
        (fun c => some (ResultCol.expr r.tableAlias c (dotCol r.tableAlias c)))
      ++ [joinAlias.map ResultCol.tableStar]).filterMap id)

/-- `createWhere` threading: the where-record is rendered against the level's
table alias (the parameter registration of the external `createWhere` helper
is modelled by `paramsOfResolved` below). -/
def createWhereNode (r : ResolvedQuery) : Option (String × WhereRecord) :=
  r.whereClause.map (fun w => (r.tableAlias, w))

/-- `createLimit`: no node when `limit` is null; otherwise the limit literal
with an optional offset. -/
def createLimitNode (lim : Option Int) (off : Option Int) :
    Option (Int × Option Int) :=
  lim.map (fun l => (l, off))

/-- `createOrderBy`: each term is rendered against the level's table alias;
an empty list collapses to no clause (`arrayToOptionalNonEmptyArray`). -/
def createOrderByNode (ord : Option (List (String × OrderDirection)))
    (tblAlias : String) : Option (List (String × String × OrderDirection)) :=
  ord.bind (fun ts =>
    if ts.isEmpty then none
    else some (ts.map (fun t => (tblAlias, t.1, t.2))))

/-- `createFrom`: plain aliased table, or left join of the already-built
inner select with the current table, on
`innerAlias.currentCol == tableAlias.joinCol`. -/
def createFromNode (r : ResolvedQuery)
    (join : Option (ResolvedJoin × ResolvedQuery × SelectNode)) : FromNode :=
  match join with
  | some (jn, jq, sel) =>
      .leftJoin sel jq.tableAlias r.table r.tableAlias
        (dotCol jq.tableAlias jn.currentCol) (dotCol r.tableAlias jn.joinCol)
  | none => .table r.table r.tableAlias

/-- `resolvedQueryToSelect`: assembles one `SelectStmt` level. -/
def resolvedQueryToSelect (r : ResolvedQuery)
    (join : Option (ResolvedJoin × ResolvedQuery × SelectNode)) : SelectNode :=
  .mk (resultColumnsOf r (join.map (fun j => j.2.1.tableAlias)))
    (createFromNode r join)
    (createWhereNode r)
    (createLimitNode r.limit r.offset)
    (createOrderByNode r.orderBy r.tableAlias)

/-- The statement-construction loop of `getPreparedStatement`: start from
the innermost query, then wrap one select per join item, each time nesting
the previous select as the joined subquery. -/
def buildStmt (resolved : Resolved) : SelectNode :=
  (resolved.2.foldl
      (fun (acc : ResolvedQuery × SelectNode) item =>
        (item.query,
          resolvedQueryToSelect item.query (some (item.join, acc.1, acc.2))))
      (resolved.1, resolvedQueryToSelect resolved.1 none)).2

/-- Parameter values registered while emitting: the where-record entries of
every level in emission order (innermost first), standing for the
`valuesParamsMap` filled by `createWhere` and read by `paramsFromMap`. -/
def paramsOfResolved (resolved : Resolved) : List (String × DbValue) :=
  resolved.2.foldl (fun acc item => acc ++ item.query.whereClause.getD [])
    (resolved.1.whereClause.getD [])

/-- The emitted triple for a query: statement node and parameter list (the
`plan` of the triple is the `Resolved` value itself, which `buildResult`
consumes). -/
def emitQuery (schema : Schema) (q : DbQuery) :
    SelectNode × List (String × DbValue) :=
  (buildStmt (q.getResolved schema), paramsOfResolved (q.getResolved schema))

/-- Per-query-object cache: the memoized `resolved` and `preparedStatement`
fields of `DatabaseTableQuery`, threaded explicitly. -/
structure QueryCacheState where
  resolved : Option Resolved
  prepared : Option (SelectNode × List (String × DbValue))

/-- `getResolved` with memoization, as the source method does. -/
def getResolvedCached (schema : Schema) (q : DbQuery)
    (st : QueryCacheState) : Resolved × QueryCacheState :=
  match st.resolved with
  | some r => (r, st)
  | none =>
      let r := q.getResolved schema
      (r, { st with resolved := some r })

/-- `getPreparedStatement` with memoization: returns the cached triple when
present, otherwise resolves, builds the statement, collects the parameters
and caches the result. -/
def getPreparedCached (schema : Schema) (q : DbQuery) (st : QueryCacheState) :
    (SelectNode × List (String × DbValue)) × QueryCacheState :=
  match st.prepared with
  | some p => (p, st)
  | none =>
      let rs := getResolvedCached schema q st
      let p := (buildStmt rs.1, paramsOfResolved rs.1)
      (p, { rs.2 with prepared := some p })

/-- A cache state is consistent with a query when each memo field is either
empty or holds exactly the value recomputation would produce; the source
maintains this invariant because the fields start `null` and are only ever
assigned the computed value. -/
def QueryCacheState.consistent (schema : Schema) (q : DbQuery)
    (st : QueryCacheState) : Prop :=
  (st.resolved = none ∨ st.resolved = some (q.getResolved schema)) ∧
  (st.prepared = none ∨ st.prepared = some (emitQuery schema q))

/-- A flat driver row: result-column name to cell value, `null` as `none`.
The rows the emitted statements produce are total over the referenced
columns. -/
def Row : Type := List (String × Option DbValue)

instance : DecidableEq Row := by
  unfold Row
  infer_instance

/-- Cell lookup `row[col]`. -/
def getCell (row : Row) (col : String) : Option DbValue :=
  match row.find? (fun cell => cell.1 == col) with
  | some cell => cell.2
  | none => none

/-- A shaped result value of `buildResult`: the `undefined` produced for a
selection-less leaf, a parsed cell, a record, a joined array (kind `many`),
or `null`. -/
inductive ShapedVal where
  | undef
  | cell (v : Option DbValue)
  | record (fields : List (String × ShapedVal))
  | arr (xs : List ShapedVal)
  | nullVal

/-- `getColumnSchema` from `buildResult`: schema lookup, raising the
source's errors when the table or the column is missing. -/
def getColumnSchema (schema : Schema) (table col : String) :
    Except String ColumnDef :=
  match schema.find? (fun td => td.name == table) with
  | none => .error ("Table \"" ++ table ++ "\" not found")
  | some td =>
      match td.columns.find? (fun c => c.name == col) with
      | none =>
          .error ("Column \"" ++ col ++ "\" not found in table \"" ++
            table ++ "\"")
      | some c => .ok c

/-- One group of rows sharing primary-key cells. -/
structure RowGroup where
  keys : List (Option DbValue)
  rows : List Row

/-- Primary-key cells of a row for one resolved level
(`colsKey.map((col) => row[col])`). -/
def groupKeysOf (q : ResolvedQuery) (row : Row) : List (Option DbValue) :=
  q.primaryColumns.map (fun col => getCell row (dotCol q.tableAlias col))

/-- Push a row onto the first group with equal keys, appending a new group
otherwise (the source's `groups.find` followed by push). -/
def insertGrouped (keys : List (Option DbValue)) (row : Row) :
    List RowGroup → List RowGroup
  | [] => [⟨keys, [row]⟩]
  | g :: gs =>
      if g.keys = keys then ⟨g.keys, g.rows ++ [row]⟩ :: gs
      else g :: insertGrouped keys row gs

/-- One step of the grouping loop of `groupRows`: a row any of whose
primary-key cells is null is skipped (`if (keys.includes(null)) return`) —
null primary cells arise only from unmatched left joins, primaries being
non-nullable. -/
def addRow (q : ResolvedQuery) (groups : List RowGroup) (row : Row) :
    List RowGroup :=
  if (groupKeysOf q row).contains none then groups
  else insertGrouped (groupKeysOf q row) row groups

/-- The grouping loop of `groupRows`. -/
def buildGroups (q : ResolvedQuery) (rows : List Row) : List RowGroup :=
  rows.foldl (addRow q) []

/-- Selected fields of one group: each selected column is looked up in the
schema (raising on unknown tables or columns) and its cell taken from the
group's first row; the `parseColumn` codec of the external `schema` module
is modelled as the identity on primitive cells. -/
def shapedFields (schema : Schema) (q : ResolvedQuery) (group : RowGroup) :
    Except String (List (String × ShapedVal)) :=
  match q.columns with
  | none => pure []
  | some cols =>
      cols.mapM (fun col =>
        (getColumnSchema schema q.table col).map (fun _ =>
          (col, ShapedVal.cell
            (getCell (group.rows.headD []) (dotCol q.tableAlias col)))))

/-- The value placed under a join key: the source's `maybeOne` and
`maybeFirst` branches return `results[0] ?? null`, so a JS-undefined first
element coalesces to null for those kinds; `one`, `first` and `many` pass
their result through unchanged. -/
def joinContentValue (kind : PipeKind) (c : JoinContent ShapedVal) :
    ShapedVal :=
  match c with
  | .arr xs => .arr xs
  | .nullVal => .nullVal
  | .val x =>
      match kind with
      | .maybeOne | .maybeFirst =>
          match x with
          | .undef => .nullVal
          | _ => x
      | _ => x

/-- `groupRows` from `buildResult`: group the rows by the level's
primary-key cells (dropping any row with a null key cell), shape each
group's selected columns from its first row, and recurse on the join items,
enforcing each join's cardinality through `transformJoin`; a group shapes
to `undefined` when nothing is selected and no join remains, and the join
key is omitted when the join content is `undefined`. -/
def groupRows (schema : Schema) :
    ResolvedQuery → List ResolvedJoinItem → List Row →
      Except String (List ShapedVal)
  | q, [], rows =>
      (buildGroups q rows).mapM (fun group => do
        let fields ← shapedFields schema q group
        match q.columns with
        | none => pure ShapedVal.undef
        | some _ => pure (ShapedVal.record fields))
  | q, join :: nextJoins, rows =>
      (buildGroups q rows).mapM (fun group => do
        let fields ← shapedFields schema q group
        let joinResult ← groupRows schema join.query nextJoins group.rows
        let joinContent ← transformJoin joinResult join.join.kind
        let contentVal := joinContentValue join.join.kind joinContent
        match q.columns with
        | none => pure contentVal
        | some _ =>
            match contentVal with
            | ShapedVal.undef => pure (ShapedVal.record fields)
            | _ =>
                pure (ShapedVal.record
                  (fields ++ [(join.query.table, contentVal)])))

/-- `buildResult`: resolve the query and shape the driver rows. -/
def buildResult (schema : Schema) (q : DbQuery) (rows : List Row) :
    Except String (List ShapedVal) :=
  let resolved := q.getResolved schema
  groupRows schema resolved.1 resolved.2 rows

/-- Emission tokens for the CTE-hoisting model: keywords/punctuation,
identifier references, and the rendered body of a derived query (kept
opaque, tagged by the derived query's identity token). -/
inductive EmitTok where
  | kw (s : String)
  | ref (s : String)
  | body (id : Nat)
  deriving DecidableEq, Repr

/-- Modelled from the spec: a derived query accumulated by the emitter's
collect phase, with its per-value identity token and the explicit
`queryFrom` promotion flag. The emitter itself is not among the sources at
hand; only its tests are. -/
structure DerivedDef where
  id : Nat
  promoted : Bool
  deriving DecidableEq, Repr

/-- Modelled from the spec: the root query as the emitter's collect phase
sees it — its base table, the derived queries it references from joins and
from `inSubquery`/`notInSubquery` predicates (by identity token), and the
collected derived-query list. -/
structure RootQueryModel where
  baseTable : String
  joinUses : List Nat
  subqueryUses : List Nat
  deriveds : List DerivedDef
  deriving DecidableEq, Repr

/-- Reference count of a derived query: its uses across joins and subquery
predicates. -/
def refCount (r : RootQueryModel) (i : Nat) : Nat :=
  (r.joinUses ++ r.subqueryUses).count i

/-- Whether a derived query appears in an `inSubquery`/`notInSubquery`
predicate. -/
def usedInSubquery (r : RootQueryModel) (i : Nat) : Bool :=
  r.subqueryUses.contains i

/-- Whether the user explicitly promoted the derived query via `queryFrom`. -/
def isPromoted (r : RootQueryModel) (i : Nat) : Bool :=
  match r.deriveds.find? (fun d => d.id == i) with
  | some d => d.promoted
  | none => false

/-- Modelled from the spec: the CTE decision — a derived query becomes a CTE
when it is referenced at least twice, explicitly promoted, or used in a
subquery predicate; otherwise it is inlined. -/
def decideCTE (r : RootQueryModel) (i : Nat) : Bool :=
  decide (2 ≤ refCount r i) || isPromoted r i || usedInSubquery r i

/-- CTE name assigned to a derived query (`cte_<freshId>`; test-mode ids). -/
def cteName (i : Nat) : String := "cte_id" ++ toString i

/-- Modelled from the spec: the `WITH` prefix — every derived query that the
decision promotes is materialized exactly once, as `name AS (body)`. -/
def emitCteDefs (r : RootQueryModel) : List EmitTok :=
  match r.deriveds.filter (fun d => decideCTE r d.id) with
  | [] => []
  | ctes =>
      .kw "WITH" ::
        ctes.flatMap (fun d =>
          [.ref (cteName d.id), .kw "AS", .kw "(", .body d.id, .kw ")"])

/-- Modelled from the spec: a use site of a derived query — the CTE name
when promoted, the parenthesized body otherwise. -/
def emitUse (r : RootQueryModel) (i : Nat) : List EmitTok :=
  if decideCTE r i then [.ref (cteName i)]
  else [.kw "(", .body i, .kw ")"]

/-- Modelled from the spec: the full emission — `WITH` prefix, root SELECT,
one join per joined derived query, and the subquery predicates. -/
def emitRoot (r : RootQueryModel) : List EmitTok :=
  emitCteDefs r
    ++ [.kw "SELECT", .kw "*", .kw "FROM", .ref r.baseTable]
    ++ r.joinUses.flatMap (fun i => .kw "JOIN" :: emitUse r i)
    ++ (match r.subqueryUses with
        | [] => []
        | us => .kw "WHERE" :: us.flatMap (fun i => .kw "IN" :: emitUse r i))

/-- Modelled from the spec: the test-mode id generator — a monotonic counter
producing `id0`, `id1`, … (`Random.setCreateId` in the tests). -/
structure IdGen where
  counter : Nat
  deriving DecidableEq, Repr

/-- Draw one test-mode id, advancing the counter. -/
def createId (g : IdGen) : String × IdGen :=
  ("id" ++ toString g.counter, ⟨g.counter + 1⟩)

/-- Modelled from the spec: parameter-name assignment for an external at
emit time — the explicit label when it is provided and not already used,
otherwise an underscore-prefixed fresh id. -/
def resolveExternalName (usedLabels : List String) (g : IdGen)
    (label : Option String) : String × IdGen :=
  match label with
  | some l =>
      if usedLabels.contains l then
        let fresh := createId g
        ("_" ++ fresh.1, fresh.2)
      else (l, g)
  | none =>
      let fresh := createId g
      ("_" ++ fresh.1, fresh.2)

/-- Modelled from the spec: emission of `table.query().limit(external(v))` —
the scenario (S5). The external's parameter name is resolved, `LIMIT :name`
is appended to the SQL text, and the params map binds the name to the
external's (already primitive) value. -/
def emitLimitExternal (tbl : String) (label : Option String) (v : Int)
    (g : IdGen) : (String × List (String × Int)) × IdGen :=
  let resolvedName := resolveExternalName [] g label
  (("SELECT " ++ tbl ++ ".* FROM " ++ tbl ++ " LIMIT :" ++ resolvedName.1,
      [(resolvedName.1, v)]),
    resolvedName.2)

/-- Task row of the sample data (`tasks` table of the test database). -/
structure TaskRow where
  id : String
  title : String
  description : String
  completed : Bool
  deriving DecidableEq, Repr

/-- The five sample tasks inserted by the test setup. -/
def tasksData : List TaskRow :=
  [⟨"1", "First Task", "First Task", false⟩,
    ⟨"2", "Second Task", "Second Task", true⟩,
    ⟨"3", "Third Task", "Third Task", true⟩,
    ⟨"4", "Fourth Task", "Fourth Task", false⟩,
    ⟨"5", "Fifth Task", "Fifth Task", false⟩]

/-- The sample `joinUsersTasks` rows `(user_id, task_id)`. -/
def joinRowsData : List (String × String) :=
  [("1", "1"), ("1", "2"), ("2", "3"), ("3", "1")]

/-- Modelled from the spec: the inner join of `joinUsersTasks` with `tasks`
on `task_id == id` (scenario S1); the query API executing it is not among
the sources at hand. -/
def innerJoinTasks : List (String × TaskRow) :=
  joinRowsData.filterMap (fun jr =>
    (tasksData.find? (fun t => t.id == jr.2)).map (fun t => (jr.1, t)))

/-- Modelled from the spec: grouping by `user_id` in row order and
aggregating each group's tasks with `json_group_array(json_object(task))`
(scenario S1). -/
def tasksByUser : List (String × List TaskRow) :=
  (dedupe (innerJoinTasks.map (fun p => p.1))).map (fun u =>
    (u, (innerJoinTasks.filter (fun p => p.1 == u)).map (fun p => p.2)))

/-- Two-table schema used to exhibit a resolved query with a join. -/
def schemaC10 : Schema :=
  [⟨"t1", [⟨"id", true⟩, ⟨"c1", false⟩]⟩,
    ⟨"t2", [⟨"id2", true⟩, ⟨"c2", false⟩]⟩]

/-- A one-pipe query over `schemaC10`. -/
def queryC10 : DbQuery := (DbQuery.create "t1").pipe "c1" "t2" "c2"

/-- The outermost resolved query of `queryC10` (the level whose SELECT joins
the inner select). -/
def topC10 : ResolvedQuery :=
  { table := "t2", tableAlias := "_0", limit := none, offset := none,
    columns := none, joinColumns := ["c2"], primaryColumns := ["id2"],
    whereClause := none, orderBy := none }

/-- Two-table schema for the left-join shaping scenario. -/
def schemaC4 : Schema :=
  [⟨"t1", [⟨"id", true⟩]⟩, ⟨"t2", [⟨"id2", true⟩]⟩]

/-- A `pipe` (left join, kind `many`) of `t1` to `t2`, selecting one column
at each level. -/
def queryC4 : DbQuery :=
  (((DbQuery.create "t1").select ["id"]).pipe "id" "t2" "id2").select ["id2"]

/-- The innermost resolved level of `queryC4` (the `t1` scan). -/
def resolvedT1C4 : ResolvedQuery :=
  { table := "t1", tableAlias := "_1", limit := none, offset := none,
    columns := some ["id"], joinColumns := ["id"], primaryColumns := ["id"],
    whereClause := none, orderBy := none }

/-- The joined resolved level of `queryC4` (the `t2` subtree). -/
def resolvedT2C4 : ResolvedQuery :=
  { table := "t2", tableAlias := "_0", limit := none, offset := none,
    columns := some ["id2"], joinColumns := ["id2"],
    primaryColumns := ["id2"], whereClause := none, orderBy := none }

/-- A driver row where `t1.id = 1` found a matching `t2` row. -/
def rowC4a : Row :=
  [("_1.id", some (.intV 1)), ("_0.id2", some (.intV 10))]

/-- A driver row where `t1.id = 2` found no match: every primary-key cell of
the joined `t2` subtree is null. -/
def rowC4b : Row :=
  [("_1.id", some (.intV 2)), ("_0.id2", none)]

/-- Schema with a composite primary key, to exercise a partially-null key. -/
def schemaC4m : Schema := [⟨"t3", [⟨"a", true⟩, ⟨"b", true⟩]⟩]

/-- Base scan of the composite-key table. -/
def queryC4m : DbQuery := DbQuery.create "t3"

/-- The resolved base scan of `queryC4m`. -/
def resolvedC4m : ResolvedQuery :=
  { table := "t3", tableAlias := "_0", limit := none, offset := none,
    columns := none, joinColumns := [], primaryColumns := ["a", "b"],
    whereClause := none, orderBy := none }

/-- A row whose composite primary key is only partially null. -/
def rowC4m : Row := [("_0.a", some (.intV 1)), ("_0.b", none)]

/-- A root query for the CTE model: derived query 7 is joined twice, derived
query 5 is joined once and neither is promoted or used in a subquery. -/
def cteExampleRoot : RootQueryModel :=
  { baseTable := "users", joinUses := [7, 7, 5], subqueryUses := [],
    deriveds := [⟨7, false⟩, ⟨5, false⟩] }

/-! ## Theorems -/

/-- C1: for the terminal cardinality shapers applied to a query's shaped
result list, `one` raises on 0 or at least 2 results and otherwise returns
the single result; `maybeOne` raises on at least 2, returns null on 0 and
the one result otherwise; `first` raises on 0 and otherwise returns the
first result; `maybeFirst` never raises, returning null on 0 and the first
result otherwise. -/
theorem claim_C1_cardinality_shapers {α : Type} :
    (∀ (results : List α), results.length = 0 ∨ 2 ≤ results.length →
      oneResult results =
        .error ("Expected 1 result, got " ++ toString results.length)) ∧
    (∀ (x : α), oneResult [x] = .ok x) ∧
    (∀ (results : List α), 2 ≤ results.length →
      maybeOneResult results =
        .error ("Expected maybe 1 result, got " ++ toString results.length)) ∧
    (maybeOneResult ([] : List α) = .ok none) ∧
    (∀ (x : α), maybeOneResult [x] = .ok (some x)) ∧
    (firstResult ([] : List α) = .error "Expected at least 1 result, got 0") ∧
    (∀ (x : α) (xs : List α), firstResult (x :: xs) = .ok x) ∧
    (maybeFirstResult ([] : List α) = .ok none) ∧
    (∀ (x : α) (xs : List α), maybeFirstResult (x :: xs) = .ok (some x)) := by
  refine ⟨?_, fun x => rfl, ?_, rfl, fun x => rfl, rfl, fun x xs => rfl, rfl,
    fun x xs => rfl⟩
  · intro results h
    rcases results with _ | ⟨x, _ | ⟨y, t⟩⟩
    · rfl
    · exact absurd h (by simp)
    · rfl
  · intro results h
    rcases results with _ | ⟨x, _ | ⟨y, t⟩⟩
    · exact absurd h (by simp)
    · exact absurd h (by simp)
    · simp [maybeOneResult]

/-- Witness for C1 at concrete result lists. -/
theorem claim_C1_cardinality_shapers_witness :
    oneResult ([1, 2] : List Nat) = .error "Expected 1 result, got 2" ∧
    maybeOneResult ([1, 2] : List Nat) =
      .error "Expected maybe 1 result, got 2" :=
  ⟨claim_C1_cardinality_shapers.1 [1, 2] (Or.inr (by decide)),
    claim_C1_cardinality_shapers.2.2.1 [1, 2] (by decide)⟩

/-- C2 counterexample: calling `.where(p2)` on a query that already carries
where-record `p1` yields `p2` alone, not the conjunction of `p1` and `p2`
(for where-records, the conjunction of the denoted equalities is their
entry-wise concatenation). -/
theorem claim_C2_counterexample :
    (((DbQuery.create "users").whereOp [("a", .intV 1)]).whereOp
        [("b", .intV 2)]).whereClause = some [("b", DbValue.intV 2)] ∧
    (((DbQuery.create "users").whereOp [("a", .intV 1)]).whereOp
        [("b", .intV 2)]).whereClause ≠
      some ([("a", DbValue.intV 1)] ++ [("b", DbValue.intV 2)]) :=
  ⟨rfl, by decide⟩

/-- C2 (amended): `.where(p2)` replaces any existing where-record with `p2`
and leaves every other field of the query unchanged. -/
theorem claim_C2_where_replaces (q : DbQuery) (w : WhereRecord) :
    (q.whereOp w).whereClause = some w ∧
    (q.whereOp w).table = q.table ∧
    (q.whereOp w).selection = q.selection ∧
    (q.whereOp w).limitClause = q.limitClause ∧
    (q.whereOp w).orderByClause = q.orderByClause ∧
    (q.whereOp w).parent = q.parent := by
  cases q <;> exact ⟨rfl, rfl, rfl, rfl, rfl, rfl⟩

/-- C5: every builder operation (`select`, `where`, `limit`, `orderBy` and
the pipe variants) produces a fresh query value that differs from the
receiver only in the targeted field; the receiver — stored unchanged as the
parent by `pipeInternal` — is never mutated, the embedding being a pure
value semantics of the source's spread-copies. -/
theorem claim_C5_builders_immutable (q : DbQuery) (sel : List String)
    (w : WhereRecord) (lim off : Option Int)
    (ord : List (String × OrderDirection)) (k : PipeKind)
    (cc tb jc : String) :
    ((q.select sel).selection = some sel ∧ (q.select sel).table = q.table ∧
      (q.select sel).whereClause = q.whereClause ∧
      (q.select sel).limitClause = q.limitClause ∧
      (q.select sel).orderByClause = q.orderByClause ∧
      (q.select sel).parent = q.parent) ∧
    ((q.whereOp w).whereClause = some w ∧ (q.whereOp w).table = q.table ∧
      (q.whereOp w).selection = q.selection ∧
      (q.whereOp w).limitClause = q.limitClause ∧
      (q.whereOp w).orderByClause = q.orderByClause ∧
      (q.whereOp w).parent = q.parent) ∧
    ((q.limit lim off).limitClause = some (lim, off) ∧
      (q.limit lim off).table = q.table ∧
      (q.limit lim off).selection = q.selection ∧
      (q.limit lim off).whereClause = q.whereClause ∧
      (q.limit lim off).orderByClause = q.orderByClause ∧
      (q.limit lim off).parent = q.parent) ∧
    ((q.orderBy ord).orderByClause = some ord ∧
      (q.orderBy ord).table = q.table ∧
      (q.orderBy ord).selection = q.selection ∧
      (q.orderBy ord).whereClause = q.whereClause ∧
      (q.orderBy ord).limitClause = q.limitClause ∧
      (q.orderBy ord).parent = q.parent) ∧
    ((q.pipeInternal k cc tb jc).parent = some (k, cc, jc, q) ∧
      (q.pipeInternal k cc tb jc).table = tb ∧
      (q.pipeInternal k cc tb jc).selection = none ∧
      (q.pipeInternal k cc tb jc).whereClause = none ∧
      (q.pipeInternal k cc tb jc).limitClause = none ∧
      (q.pipeInternal k cc tb jc).orderByClause = none) ∧
    (q.pipe cc tb jc = q.pipeInternal .many cc tb jc ∧
      q.pipeOne cc tb jc = q.pipeInternal .one cc tb jc ∧
      q.pipeMaybeOne cc tb jc = q.pipeInternal .maybeOne cc tb jc ∧
      q.pipeFirst cc tb jc = q.pipeInternal .first cc tb jc ∧
      q.pipeMaybeFirst cc tb jc = q.pipeInternal .maybeFirst cc tb jc) := by
  cases q <;>
    exact ⟨⟨rfl, rfl, rfl, rfl, rfl, rfl⟩, ⟨rfl, rfl, rfl, rfl, rfl, rfl⟩,
      ⟨rfl, rfl, rfl, rfl, rfl, rfl⟩, ⟨rfl, rfl, rfl, rfl, rfl, rfl⟩,
      ⟨rfl, rfl, rfl, rfl, rfl, rfl⟩, ⟨rfl, rfl, rfl, rfl, rfl⟩⟩

/-- C9: `transformJoin` enforces the join kind on each parent group's joined
results — `many` returns the array unchanged, `one` raises on zero or more
than one, `maybeOne` raises on more than one and yields null on zero,
`first` raises on zero, `maybeFirst` yields the first result or null and
never raises. -/
theorem claim_C9_transform_join {α : Type} :
    (∀ (results : List α), transformJoin results .many = .ok (.arr results)) ∧
    (transformJoin ([] : List α) .maybeFirst = .ok .nullVal) ∧
    (∀ (x : α) (xs : List α),
      transformJoin (x :: xs) .maybeFirst = .ok (.val x)) ∧
    (transformJoin ([] : List α) .first =
      .error "No result for a single join") ∧
    (∀ (x : α) (xs : List α), transformJoin (x :: xs) .first = .ok (.val x)) ∧
    (∀ (results : List α), 2 ≤ results.length →
      transformJoin results .maybeOne =
        .error "Multiple results for a single join") ∧
    (transformJoin ([] : List α) .maybeOne = .ok .nullVal) ∧
    (∀ (x : α), transformJoin [x] .maybeOne = .ok (.val x)) ∧
    (transformJoin ([] : List α) .one = .error "No result for a single join") ∧
    (∀ (results : List α), 2 ≤ results.length →
      transformJoin results .one =
        .error "Multiple results for a single join") ∧
    (∀ (x : α), transformJoin [x] .one = .ok (.val x)) := by
  refine ⟨fun results => rfl, rfl, fun x xs => rfl, rfl, fun x xs => rfl,
    ?_, rfl, fun x => rfl, rfl, ?_, fun x => rfl⟩
  · intro results h
    rcases results with _ | ⟨x, _ | ⟨y, t⟩⟩
    · exact absurd h (by simp)
    · exact absurd h (by simp)
    · simp [transformJoin]
  · intro results h
    rcases results with _ | ⟨x, _ | ⟨y, t⟩⟩
    · exact absurd h (by simp)
    · exact absurd h (by simp)
    · simp [transformJoin]

/-- Witness for C9 at a concrete two-element group. -/
theorem claim_C9_transform_join_witness :
    transformJoin ([1, 2] : List Nat) .maybeOne =
      .error "Multiple results for a single join" ∧
    transformJoin ([1, 2] : List Nat) .one =
      .error "Multiple results for a single join" :=
  ⟨claim_C9_transform_join.2.2.2.2.2.1 [1, 2] (by decide),
    claim_C9_transform_join.2.2.2.2.2.2.2.2.2.1 [1, 2] (by decide)⟩

/-- A row found in a group after an insertion was either already in some
group or is the row just inserted. -/
theorem mem_rows_of_insertGrouped {x : Row} (keys : List (Option DbValue))
    (r : Row) :
    ∀ (groups : List RowGroup), ∀ g ∈ insertGrouped keys r groups,
      x ∈ g.rows → (∃ g' ∈ groups, x ∈ g'.rows) ∨ x = r := by
  intro groups
  induction groups with
  | nil =>
      intro g hg hx
      unfold insertGrouped at hg
      rcases List.mem_cons.mp hg with h | h
      · subst h
        right
        simpa using hx
      · cases h
  | cons g0 gs ih =>
      intro g hg hx
      unfold insertGrouped at hg
      by_cases hk : g0.keys = keys
      · rw [if_pos hk] at hg
        rcases List.mem_cons.mp hg with h | h
        · subst h
          rcases List.mem_append.mp hx with h' | h'
          · exact Or.inl ⟨g0, List.mem_cons_self _ _, h'⟩
          · right
            simpa using h'
        · exact Or.inl ⟨g, List.mem_cons_of_mem _ h, hx⟩
      · rw [if_neg hk] at hg
        rcases List.mem_cons.mp hg with h | h
        · subst h
          exact Or.inl ⟨g, List.mem_cons_self _ _, hx⟩
        · rcases ih g h hx with ⟨g', hg', hx'⟩ | h'
          · exact Or.inl ⟨g', List.mem_cons_of_mem _ hg', hx'⟩
          · exact Or.inr h'

/-- Insertion preserves the rows already grouped. -/
theorem exists_mem_insertGrouped {x : Row} (keys : List (Option DbValue))
    (r : Row) :
    ∀ (groups : List RowGroup), (∃ g' ∈ groups, x ∈ g'.rows) →
      ∃ g ∈ insertGrouped keys r groups, x ∈ g.rows := by
  intro groups
  induction groups with
  | nil =>
      intro h
      obtain ⟨g', hg', _⟩ := h
      cases hg'
  | cons g0 gs ih =>
      intro h
      obtain ⟨g', hg', hx⟩ := h
      unfold insertGrouped
      by_cases hk : g0.keys = keys
      · rw [if_pos hk]
        rcases List.mem_cons.mp hg' with h' | h'
        · subst h'
          exact ⟨⟨g'.keys, g'.rows ++ [r]⟩, List.mem_cons_self _ _,
            List.mem_append_left _ hx⟩
        · exact ⟨g', List.mem_cons_of_mem _ h', hx⟩
      · rw [if_neg hk]
        rcases List.mem_cons.mp hg' with h' | h'
        · subst h'
          exact ⟨g', List.mem_cons_self _ _, hx⟩
        · obtain ⟨g, hg, hx'⟩ := ih ⟨g', h', hx⟩
          exact ⟨g, List.mem_cons_of_mem _ hg, hx'⟩

/-- The inserted row belongs to some group after insertion. -/
theorem self_mem_insertGrouped (keys : List (Option DbValue)) (r : Row) :
    ∀ (groups : List RowGroup),
      ∃ g ∈ insertGrouped keys r groups, r ∈ g.rows := by
  intro groups
  induction groups with
  | nil =>
      unfold insertGrouped
      exact ⟨⟨keys, [r]⟩, List.mem_cons_self _ _, List.mem_cons_self _ _⟩
  | cons g0 gs ih =>
      unfold insertGrouped
      by_cases hk : g0.keys = keys
      · rw [if_pos hk]
        exact ⟨⟨g0.keys, g0.rows ++ [r]⟩, List.mem_cons_self _ _,
          List.mem_append_right _ (List.mem_cons_self _ _)⟩
      · rw [if_neg hk]
        obtain ⟨g, hg, hr⟩ := ih
        exact ⟨g, List.mem_cons_of_mem _ hg, hr⟩

/-- A row with a null primary-key cell never enters any group. -/
theorem foldl_addRow_not_mem (q : ResolvedQuery) (row : Row)
    (hnull : (groupKeysOf q row).contains none = true) :
    ∀ (rows : List Row) (acc : List RowGroup),
      (∀ g ∈ acc, row ∉ g.rows) →
      ∀ g ∈ rows.foldl (addRow q) acc, row ∉ g.rows := by
  intro rows
  induction rows with
  | nil => intro acc hacc g hg; exact hacc g hg
  | cons r rs ih =>
      intro acc hacc
      rw [List.foldl_cons]
      refine ih (addRow q acc r) ?_
      intro g hg hx
      unfold addRow at hg
      by_cases hk : (groupKeysOf q r).contains none = true
      · rw [if_pos hk] at hg
        exact hacc g hg hx
      · rw [if_neg hk] at hg
        rcases mem_rows_of_insertGrouped _ r acc g hg hx with ⟨g', hg', hx'⟩ | h'
        · exact hacc g' hg' hx'
        · exact hk (h' ▸ hnull)

/-- A grouped row stays grouped along the rest of the loop. -/
theorem foldl_addRow_preserves (q : ResolvedQuery) (row : Row) :
    ∀ (rows : List Row) (acc : List RowGroup),
      (∃ g ∈ acc, row ∈ g.rows) →
      ∃ g ∈ rows.foldl (addRow q) acc, row ∈ g.rows := by
  intro rows
  induction rows with
  | nil => intro acc hacc; exact hacc
  | cons r rs ih =>
      intro acc hacc
      rw [List.foldl_cons]
      refine ih (addRow q acc r) ?_
      unfold addRow
      by_cases hk : (groupKeysOf q r).contains none = true
      · rw [if_pos hk]
        exact hacc
      · rw [if_neg hk]
        exact exists_mem_insertGrouped _ r acc hacc

/-- A processed row with no null primary-key cell ends up in some group. -/
theorem foldl_addRow_mem (q : ResolvedQuery) (row : Row)
    (hnn : (groupKeysOf q row).contains none = false) :
    ∀ (rows : List Row) (acc : List RowGroup), row ∈ rows →
      ∃ g ∈ rows.foldl (addRow q) acc, row ∈ g.rows := by
  intro rows
  induction rows with
  | nil => intro acc h; cases h
  | cons r rs ih =>
      intro acc hmem
      rw [List.foldl_cons]
      rcases List.mem_cons.mp hmem with h | h
      · subst h
        refine foldl_addRow_preserves q row rs (addRow q acc row) ?_
        unfold addRow
        rw [hnn]
        simp only [Bool.false_eq_true, if_false]
        exact self_mem_insertGrouped _ row acc
      · exact ih (addRow q acc r) h

/-- When every row carries a null primary-key cell the loop adds nothing. -/
theorem foldl_addRow_all_null (q : ResolvedQuery) :
    ∀ (rows : List Row),
      (∀ r ∈ rows, (groupKeysOf q r).contains none = true) →
      ∀ (acc : List RowGroup), rows.foldl (addRow q) acc = acc := by
  intro rows
  induction rows with
  | nil => intro _ acc; rfl
  | cons r rs ih =>
      intro hall acc
      rw [List.foldl_cons]
      have hr : addRow q acc r = acc := by
        unfold addRow
        rw [hall r (List.mem_cons_self _ _)]
        simp
      rw [hr]
      exact ih (fun r' hr' => hall r' (List.mem_cons_of_mem _ hr')) acc

/-- C4 counterexample: on the embedded `groupRows` pipeline, a left-joined
subtree all of whose primary-key cells are null does not become null — for
the `pipe` join (kind `many`) it becomes the empty array — and a row whose
composite primary key is only partially null is dropped from the grouping
altogether rather than shaped normally. -/
theorem claim_C4_counterexample :
    (queryC4.getResolved schemaC4).1 = resolvedT1C4 ∧
    (queryC4.getResolved schemaC4).2.map (fun item => item.query) =
      [resolvedT2C4] ∧
    buildResult schemaC4 queryC4 [rowC4a, rowC4b] =
      .ok [ShapedVal.record [("id", .cell (some (.intV 1))),
              ("t2", .arr [ShapedVal.record [("id2", .cell (some (.intV 10)))]])],
            ShapedVal.record [("id", .cell (some (.intV 2))),
              ("t2", .arr [])]] ∧
    ShapedVal.arr [] ≠ ShapedVal.nullVal ∧
    (queryC4m.getResolved schemaC4m).1 = resolvedC4m ∧
    (groupKeysOf resolvedC4m rowC4m).contains none = true ∧
    (¬ ∀ c ∈ groupKeysOf resolvedC4m rowC4m, c = none) ∧
    buildResult schemaC4m queryC4m [rowC4m] = .ok [] := by
  refine ⟨rfl, rfl, rfl, ?_, rfl, rfl, ?_, rfl⟩
  · intro h
    cases h
  · decide

/-- C4 (amended): `groupRows` excludes a row from the current subtree's
grouping when any of its primary-key cells is null — in particular a
left-joined subtree with no match, whose primary cells are all null,
contributes no rows — while a row with no null primary cell is grouped into
the shaped output; the value placed under the join key for a group with
zero joined rows is kind-dependent via `transformJoin`: the empty array for
kind `many`, null for `maybeOne` and `maybeFirst`, and an error for `one`
and `first`. -/
theorem claim_C4_group_rows_shaping (schema : Schema) (q jq : ResolvedQuery)
    (rows : List Row) (row : Row) :
    ((groupKeysOf q row).contains none = true →
      ∀ g ∈ buildGroups q rows, row ∉ g.rows) ∧
    (row ∈ rows → (groupKeysOf q row).contains none = false →
      ∃ g ∈ buildGroups q rows, row ∈ g.rows) ∧
    ((∀ r ∈ rows, (groupKeysOf jq r).contains none = true) →
      groupRows schema jq [] rows = .ok []) ∧
    (transformJoin ([] : List ShapedVal) .many = .ok (.arr []) ∧
      transformJoin ([] : List ShapedVal) .maybeOne = .ok .nullVal ∧
      transformJoin ([] : List ShapedVal) .maybeFirst = .ok .nullVal ∧
      transformJoin ([] : List ShapedVal) .one =
        .error "No result for a single join" ∧
      transformJoin ([] : List ShapedVal) .first =
        .error "No result for a single join") := by
  refine ⟨?_, ?_, ?_, rfl, rfl, rfl, rfl, rfl⟩
  · intro hnull
    refine foldl_addRow_not_mem q row hnull rows [] ?_
    intro g hg
    cases hg
  · intro hmem hnn
    exact foldl_addRow_mem q row hnn rows [] hmem
  · intro hall
    have hb : buildGroups jq rows = [] :=
      foldl_addRow_all_null jq rows hall []
    simp only [groupRows, hb]
    rfl

/-- Witness for C4 (amended) on the concrete rows: the partially-null row
enters no group, the fully non-null row is grouped, and the matchless
joined subtree produces zero shaped rows. -/
theorem claim_C4_group_rows_shaping_witness :
    (∀ g ∈ buildGroups resolvedC4m [rowC4m], rowC4m ∉ g.rows) ∧
    (∃ g ∈ buildGroups resolvedT1C4 [rowC4a, rowC4b], rowC4a ∈ g.rows) ∧
    groupRows schemaC4 resolvedT2C4 [] [rowC4b] = .ok [] :=
  ⟨(claim_C4_group_rows_shaping schemaC4m resolvedC4m resolvedC4m [rowC4m]
      rowC4m).1 (by decide),
    (claim_C4_group_rows_shaping schemaC4 resolvedT1C4 resolvedT1C4
      [rowC4a, rowC4b] rowC4a).2.1 (by decide) (by decide),
    (claim_C4_group_rows_shaping schemaC4 resolvedT2C4 resolvedT2C4 [rowC4b]
      rowC4b).2.2.1 (by decide)⟩

/-- C6: over the sample data (users 1..4, join rows (1,1),(1,2),(2,3),(3,1)),
the inner-join-then-group-by-then-json query yields exactly three result
rows, for users 1, 2 and 3 and none for user 4, with user 1's tasks array
holding task 1 then task 2. -/
theorem claim_C6_sample_join_groupby :
    tasksByUser =
      [("1", [⟨"1", "First Task", "First Task", false⟩,
          ⟨"2", "Second Task", "Second Task", true⟩]),
        ("2", [⟨"3", "Third Task", "Third Task", true⟩]),
        ("3", [⟨"1", "First Task", "First Task", false⟩])] ∧
    tasksByUser.length = 3 ∧
    tasksByUser.map (fun p => p.1) = ["1", "2", "3"] ∧
    "4" ∉ tasksByUser.map (fun p => p.1) := by
  refine ⟨rfl, rfl, rfl, ?_⟩
  decide

/-- C7: at emit time each external receives a stable parameter name — the
explicit label when provided and unique, an underscore-prefixed fresh id
otherwise — and the params map binds that name to the external's value; in
particular `.limit(Expr.external(10))` under the test id generator at
counter 4 emits `LIMIT :_id4` and params `{_id4: 10}`. -/
theorem claim_C7_externals (used : List String) (g : IdGen) (l : String)
    (lbl : Option String) (tbl : String) (v : Int) :
    (l ∉ used → resolveExternalName used g (some l) = (l, g)) ∧
    (resolveExternalName used g none =
      ("_" ++ ("id" ++ toString g.counter), ⟨g.counter + 1⟩)) ∧
    ((emitLimitExternal tbl lbl v g).1.2 =
      [((resolveExternalName [] g lbl).1, v)]) ∧
    ((emitLimitExternal tbl lbl v g).1.1 =
      "SELECT " ++ tbl ++ ".* FROM " ++ tbl ++ " LIMIT :" ++
        (resolveExternalName [] g lbl).1) ∧
    (emitLimitExternal "tasks" none 10 ⟨4⟩ =
      (("SELECT tasks.* FROM tasks LIMIT :_id4", [("_id4", 10)]), ⟨5⟩)) := by
  refine ⟨?_, rfl, rfl, rfl, by decide⟩
  intro hl
  have hc : used.contains l = false := by simpa using hl
  simp [resolveExternalName, hc, hl]

/-- Witness for C7: a provided unique label is kept verbatim. -/
theorem claim_C7_externals_witness :
    resolveExternalName ["other"] ⟨0⟩ (some "me") = ("me", ⟨0⟩) :=
  (claim_C7_externals ["other"] ⟨0⟩ "me" none "t" 0).1 (by decide)

/-- C8: emission is deterministic and idempotent — under a consistent cache
state, `getPreparedStatement` returns exactly the pure emission of the
query, and emitting a second time from the updated state returns the
identical (statement, params) pair. -/
theorem claim_C8_emission_idempotent (schema : Schema) (q : DbQuery)
    (st : QueryCacheState) (h : st.consistent schema q) :
    (getPreparedCached schema q st).1 = emitQuery schema q ∧
    (getPreparedCached schema q ((getPreparedCached schema q st).2)).1 =
      (getPreparedCached schema q st).1 := by
  obtain ⟨hres, hprep⟩ := h
  rcases hprep with hprep | hprep
  · rcases hres with hres | hres
    · constructor
      · simp [getPreparedCached, getResolvedCached, hprep, hres, emitQuery]
      · simp [getPreparedCached, getResolvedCached, hprep, hres]
    · constructor
      · simp [getPreparedCached, getResolvedCached, hprep, hres, emitQuery]
      · simp [getPreparedCached, getResolvedCached, hprep, hres]
  · constructor
    · simp [getPreparedCached, hprep, emitQuery]
    · simp [getPreparedCached, hprep]

/-- Witness for C8 on a fresh query object (empty cache). -/
theorem claim_C8_emission_idempotent_witness :
    (getPreparedCached [] (DbQuery.create "users") ⟨none, none⟩).1 =
      emitQuery [] (DbQuery.create "users") ∧
    (getPreparedCached [] (DbQuery.create "users")
        ((getPreparedCached [] (DbQuery.create "users") ⟨none, none⟩).2)).1 =
      (getPreparedCached [] (DbQuery.create "users") ⟨none, none⟩).1 :=
  claim_C8_emission_idempotent [] (DbQuery.create "users") ⟨none, none⟩
    ⟨Or.inl rfl, Or.inl rfl⟩

/-- Mapping to `some` and then filtering on `id` is the identity embedding
the source's `filter(isNotNull)` performs on the mapped result columns. -/
theorem filterMap_some_map {α β : Type} (f : α → β) (l : List α) :
    (l.map (fun a => some (f a))).filterMap id = l.map f := by
  induction l with
  | nil => rfl
  | cons a l ih => simp [ih]

/-- Keep-first deduplication preserves membership (up to the accumulator). -/
theorem mem_dedupeAux {α : Type} [DecidableEq α] (x : α) :
    ∀ (l seen : List α), x ∈ l → x ∈ dedupeAux seen l ∨ x ∈ seen := by
  intro l
  induction l with
  | nil => intro seen h; cases h
  | cons y ys ih =>
      intro seen hx
      unfold dedupeAux
      by_cases hy : y ∈ seen
      · rw [if_pos hy]
        rcases List.mem_cons.mp hx with h | h
        · subst h; exact Or.inr hy
        · exact ih seen h
      · rw [if_neg hy]
        rcases List.mem_cons.mp hx with h | h
        · subst h; exact Or.inl (List.mem_cons_self _ _)
        · rcases ih (y :: seen) h with h' | h'
          · exact Or.inl (List.mem_cons_of_mem _ h')
          · rcases List.mem_cons.mp h' with h'' | h''
            · subst h''; exact Or.inl (List.mem_cons_self _ _)
            · exact Or.inr h''

/-- Keep-first deduplication preserves membership. -/
theorem mem_dedupe {α : Type} [DecidableEq α] {x : α} {l : List α}
    (h : x ∈ l) : x ∈ dedupe l := by
  rcases mem_dedupeAux x l [] h with h' | h'
  · exact h'
  · cases h'

/-- C10 counterexample: for the one-pipe query over `schemaC10`, the
outermost emitted SELECT's result-column list is strictly larger than the
deduplicated concatenation of selected, join and primary columns — it also
carries the inner select's `innerAlias.*` column. -/
theorem claim_C10_counterexample :
    (queryC10.getResolved schemaC10).2.map (fun item => item.query) =
      [topC10] ∧
    (buildStmt (queryC10.getResolved schemaC10)).resultColumns =
      resultColumnsOf topC10 (some "_1") ∧
    resultColumnsOf topC10 (some "_1") ≠
      (dedupe (topC10.columns.getD [] ++ topC10.joinColumns ++
          topC10.primaryColumns)).map
        (fun c => ResultCol.expr topC10.tableAlias c
          (dotCol topC10.tableAlias c)) := by
  refine ⟨rfl, rfl, ?_⟩
  decide

/-- C10 (amended): the emitted SELECT's result columns are the deduplicated
concatenation of the selected columns, the join columns and the table's
primary-key columns, each aliased to `tableAlias.column`, followed by
`innerAlias.*` when the level joins an inner select; consequently every
primary-key column is always among the level's result columns even when not
selected. -/
theorem claim_C10_result_columns (r : ResolvedQuery) (ja : Option String) :
    resultColumnsOf r ja =
      (dedupe (r.columns.getD [] ++ r.joinColumns ++ r.primaryColumns)).map
        (fun c => ResultCol.expr r.tableAlias c (dotCol r.tableAlias c)) ++
      (match ja with
        | some a => [ResultCol.tableStar a]
        | none => []) ∧
    (∀ c, c ∈ r.primaryColumns →
      ResultCol.expr r.tableAlias c (dotCol r.tableAlias c) ∈
        resultColumnsOf r ja) := by
  have heq : resultColumnsOf r ja =
      (dedupe (r.columns.getD [] ++ r.joinColumns ++ r.primaryColumns)).map
        (fun c => ResultCol.expr r.tableAlias c (dotCol r.tableAlias c)) ++
      (match ja with
        | some a => [ResultCol.tableStar a]
        | none => []) := by
    unfold resultColumnsOf
    rw [List.filterMap_append, filterMap_some_map]
    congr 1
    cases ja <;> simp
  refine ⟨heq, ?_⟩
  intro c hc
  rw [heq]
  refine List.mem_append_left _ ?_
  refine List.mem_map_of_mem _ (mem_dedupe ?_)
  exact List.mem_append_right _ hc

/-- Witness for C10 (amended): the primary column of the joined level of
`queryC10` appears among its emitted result columns although no column was
selected. -/
theorem claim_C10_result_columns_witness :
    ResultCol.expr topC10.tableAlias "id2" (dotCol topC10.tableAlias "id2") ∈
      resultColumnsOf topC10 (some "_1") :=
  (claim_C10_result_columns topC10 (some "_1")).2 "id2" (by decide)

/-- Body-token count of a single use site: zero when the derived query is
promoted to a CTE (the site only names it), one occurrence at a matching
inline site. -/
theorem count_body_emitUse (r : RootQueryModel) (i j : Nat) :
    (emitUse r i).count (EmitTok.body j) =
      if decideCTE r i then 0 else if i = j then 1 else 0 := by
  unfold emitUse
  by_cases h : decideCTE r i = true
  · rw [if_pos h, if_pos h]
    simp [List.count_cons]
  · rw [if_neg h, if_neg h]
    by_cases hij : i = j
    · subst hij
      simp [List.count_cons]
    · simp [List.count_cons, hij]

/-- Body-token count over a keyword-separated list of use sites. -/
theorem count_body_useList (r : RootQueryModel) (j : Nat) (kwTok : String) :
    ∀ us : List Nat,
      ((us.flatMap (fun i => EmitTok.kw kwTok :: emitUse r i)).count
          (EmitTok.body j)) =
        if decideCTE r j then 0 else us.count j := by
  intro us
  induction us with
  | nil => simp
  | cons i us ih =>
      rw [List.flatMap_cons, List.count_append, List.count_cons,
        count_body_emitUse, ih, List.count_cons]
      by_cases hij : i = j
      · subst hij
        by_cases hc : decideCTE r i = true <;> simp [hc] <;> omega
      · have : (j == i) = false := by simp [Ne.symm hij]
        by_cases hc : decideCTE r j = true <;>
          by_cases hc' : decideCTE r i = true <;> simp [hc, hc', hij, this]

/-- Body-token count of the CTE definition list: one per definition whose
identity token matches. -/
theorem count_body_cteFlat (j : Nat) :
    ∀ ds : List DerivedDef,
      ((ds.flatMap (fun d => [EmitTok.ref (cteName d.id), EmitTok.kw "AS",
          EmitTok.kw "(", EmitTok.body d.id, EmitTok.kw ")"])).count
        (EmitTok.body j)) = (ds.map (fun d => d.id)).count j := by
  intro ds
  induction ds with
  | nil => simp
  | cons d ds ih =>
      rw [List.flatMap_cons, List.count_append, ih, List.map_cons,
        List.count_cons]
      by_cases hdj : d.id = j
      · subst hdj
        simp [List.count_cons]
        omega
      · have : (j == d.id) = false := by simp [Ne.symm hdj]
        simp [List.count_cons, hdj, this]

/-- Body-token count of the emitted `WITH` prefix. -/
theorem count_body_emitCteDefs (r : RootQueryModel) (j : Nat) :
    (emitCteDefs r).count (EmitTok.body j) =
      ((r.deriveds.filter (fun d => decideCTE r d.id)).map
        (fun d => d.id)).count j := by
  unfold emitCteDefs
  cases hf : r.deriveds.filter (fun d => decideCTE r d.id) with
  | nil => simp
  | cons d ds =>
      rw [List.count_cons]
      rw [count_body_cteFlat j (d :: ds)]
      simp

/-- Body-token count of the whole emission: the `WITH` prefix contribution
plus, for an inlined derived query, one occurrence per use site. -/
theorem count_body_emitRoot (r : RootQueryModel) (j : Nat) :
    (emitRoot r).count (EmitTok.body j) =
      ((r.deriveds.filter (fun d => decideCTE r d.id)).map
          (fun d => d.id)).count j +
        (if decideCTE r j then 0
          else r.joinUses.count j + r.subqueryUses.count j) := by
  unfold emitRoot
  rw [List.count_append, List.count_append, List.count_append,
    count_body_emitCteDefs, count_body_useList r j "JOIN" r.joinUses]
  have hfix : (([EmitTok.kw "SELECT", EmitTok.kw "*", EmitTok.kw "FROM",
      EmitTok.ref r.baseTable]).count (EmitTok.body j)) = 0 := by
    simp [List.count_cons]
  rw [hfix]
  cases hsub : r.subqueryUses with
  | nil =>
      simp
  | cons u us =>
      rw [List.count_cons, count_body_useList r j "IN" (u :: us)]
      by_cases hc : decideCTE r j = true <;> simp [hc] <;> omega

/-- C3: a derived query referenced at least twice, promoted via `queryFrom`,
or appearing in an `inSubquery`/`notInSubquery` predicate is emitted exactly
once, inside the `WITH` prefix, and every use site references it by its CTE
name; a derived query used once and not promoted is emitted exactly once,
inline at its use site, and never appears in the `WITH` prefix. -/
theorem claim_C3_cte_hoisting (r : RootQueryModel) (d : DerivedDef)
    (hd : d ∈ r.deriveds)
    (hnodup : (r.deriveds.map (fun d => d.id)).Nodup) :
    (decideCTE r d.id = true →
      (emitRoot r).count (EmitTok.body d.id) = 1 ∧
      emitUse r d.id = [EmitTok.ref (cteName d.id)]) ∧
    (decideCTE r d.id = false → refCount r d.id = 1 →
      (emitRoot r).count (EmitTok.body d.id) = 1 ∧
      (emitCteDefs r).count (EmitTok.body d.id) = 0 ∧
      emitUse r d.id = [EmitTok.kw "(", EmitTok.body d.id, EmitTok.kw ")"]) := by
  constructor
  · intro hcte
    constructor
    · rw [count_body_emitRoot, if_pos hcte]
      have hmem : d ∈ r.deriveds.filter (fun d => decideCTE r d.id) :=
        List.mem_filter.mpr ⟨hd, hcte⟩
      have hidmem : d.id ∈
          (r.deriveds.filter (fun d => decideCTE r d.id)).map
            (fun d => d.id) :=
        List.mem_map_of_mem _ hmem
      have hnd : ((r.deriveds.filter (fun d => decideCTE r d.id)).map
          (fun d => d.id)).Nodup :=
        List.Nodup.sublist (List.Sublist.map _ (List.filter_sublist _)) hnodup
      rw [List.count_eq_one_of_mem hnd hidmem]
    · unfold emitUse
      rw [if_pos hcte]
  · intro hcte href
    have h3 := hcte
    unfold decideCTE at h3
    rw [Bool.or_eq_false_iff, Bool.or_eq_false_iff] at h3
    obtain ⟨⟨_, _⟩, hsub⟩ := h3
    have hsubz : r.subqueryUses.count d.id = 0 := by
      rw [List.count_eq_zero]
      intro hmem
      have : usedInSubquery r d.id = true := by
        unfold usedInSubquery
        simpa using hmem
      rw [this] at hsub
      cases hsub
    have hjoin : r.joinUses.count d.id = 1 := by
      have hrc : refCount r d.id =
          r.joinUses.count d.id + r.subqueryUses.count d.id := by
        unfold refCount
        rw [List.count_append]
      omega
    have hfz : ((r.deriveds.filter (fun x => decideCTE r x.id)).map
        (fun x => x.id)).count d.id = 0 := by
      rw [List.count_eq_zero]
      intro hmem
      obtain ⟨d', hd', hid⟩ := List.mem_map.mp hmem
      obtain ⟨hd'mem, hd'cte⟩ := List.mem_filter.mp hd'
      have hdd : d' = d := List.inj_on_of_nodup_map hnodup hd'mem hd hid
      rw [hdd, hcte] at hd'cte
      cases hd'cte
    refine ⟨?_, ?_, ?_⟩
    · rw [count_body_emitRoot, if_neg (by simp [hcte]), hfz, hjoin, hsubz]
    · rw [count_body_emitCteDefs]
      exact hfz
    · unfold emitUse
      rw [if_neg (by simp [hcte])]

/-- Witness for C3: in `cteExampleRoot`, derived query 7 (joined twice) is
hoisted and emitted once, while derived query 5 (joined once) is inlined
once and absent from the `WITH` prefix. -/
theorem claim_C3_cte_hoisting_witness :
    ((emitRoot cteExampleRoot).count (EmitTok.body 7) = 1 ∧
      emitUse cteExampleRoot 7 = [EmitTok.ref (cteName 7)]) ∧
    ((emitRoot cteExampleRoot).count (EmitTok.body 5) = 1 ∧
      (emitCteDefs cteExampleRoot).count (EmitTok.body 5) = 0 ∧
      emitUse cteExampleRoot 5 =
        [EmitTok.kw "(", EmitTok.body 5, EmitTok.kw ")"]) :=
  ⟨(claim_C3_cte_hoisting cteExampleRoot ⟨7, false⟩ (by decide) (by decide)).1
      (by decide),
    (claim_C3_cte_hoisting cteExampleRoot ⟨5, false⟩ (by decide) (by decide)).2
      (by decide) (by decide)⟩

end ZenDb
